import Mathlib

/-
Verification of the NerdChat repository (a Next.js chat application wired
to a streaming text-generation relay) against its natural-language
specification.

The development shallowly embeds the relevant program fragments:
* `Relay`       — the POST /api/chat route handler (app/api/chat/route.ts):
                  message validation and filtering, provider configuration,
                  and the try/catch error envelope.
* `RelayTiming` — the cooperative-scheduling (run-to-completion) timeline
                  of the 60-second abort timer in the route handler.
* `Client`      — the submit handler and lifecycle guard of the chat page
                  (app/page.tsx, handleSubmit and onSubmit) and the message
                  rendering expression.
* `Utf8`        — the incremental UTF-8 chunk decoder (the platform
                  TextDecoder invoked with the stream flag), modelled from
                  the spec.
* `Tap`         — the raw-stream debug taps (the onResponse tap and the
                  fetch-effect tap) and their isolation from the structured
                  message-assembly path.
* `FetchTap`    — the one-shot interceptNextChatResponse fetch interceptor
                  and the global window.fetch slot it swaps.
Strings are modelled as Lean strings except where byte-level decoding
matters, where a string is modelled as its list of Unicode code points.
All definitions are executable; machine behaviour that lives outside the
repository sources (the useChat hook, the platform TextDecoder) is marked
`Modelled from the spec` in its doc comment.
-/

namespace Relay

/-- Shape of an inbound chat message as inspected by `isValidMessage` in
app/api/chat/route.ts: whether the JSON value is an object, its `role`
string, and whether its `content` is a string, its `content` is an array,
or its `parts` is an array. -/
structure InMsg where
  isObject : Bool
  role : String
  contentIsString : Bool
  contentIsArray : Bool
  partsIsArray : Bool
deriving DecidableEq

/-- `isValidMessage` from app/api/chat/route.ts lines 16-22: the message
must be an object, its role must be one of `user`, `assistant`, `system`,
and its content must be a string or an array, or its parts must be an
array. -/
def isValidMessage (m : InMsg) : Bool :=
  m.isObject &&
    (m.role == "user" || m.role == "assistant" || m.role == "system") &&
    (m.contentIsString || m.contentIsArray || m.partsIsArray)

/-- The role test alone: role is one of `user`, `assistant`, `system`. -/
def roleAllowed (m : InMsg) : Bool :=
  m.role == "user" || m.role == "assistant" || m.role == "system"

/-- The content/parts shape test alone. -/
def shapeAllowed (m : InMsg) : Bool :=
  m.contentIsString || m.contentIsArray || m.partsIsArray

/-- `processedMessages` from route.ts line 33: the inbound message list
filtered through `isValidMessage`. -/
def processedMessages (msgs : List InMsg) : List InMsg :=
  msgs.filter isValidMessage

/-- The fixed provider base URL from route.ts line 11. -/
def providerBaseURL : String := "https://api.hicap.ai/v2/openai/dev"

/-- The parsed JSON body of an inbound request, with the destructuring
defaults of route.ts lines 26-31.  The client also sends `endpointUrl`
in the body (app/page.tsx, the sendMessage options), so the field is part
of the wire shape even though the handler never destructures it. -/
structure RequestBody where
  messages : List InMsg
  model : Option String
  system : Option String
  providerOptions : Option String
  endpointUrl : Option String
deriving DecidableEq

/-- The outbound provider call configured by the handler: the fixed
provider `baseURL` (route.ts line 11), the selected model (default
`gemini-2.5-pro`, line 28), the filtered messages, and the forwarded
`system` / `providerOptions`. -/
structure ProviderCall where
  baseURL : String
  model : String
  messages : List InMsg
  system : Option String
  providerOptions : Option String
deriving DecidableEq

/-- The provider call the POST handler issues for a given parsed body
(route.ts lines 26-58).  The `endpointUrl` field is never read. -/
def relayProviderCall (b : RequestBody) : ProviderCall :=
  { baseURL := providerBaseURL
    model := b.model.getD "gemini-2.5-pro"
    messages := processedMessages b.messages
    system := b.system
    providerOptions := b.providerOptions }

/-- An HTTP response as produced by the POST handler: either the streamed
UI-message response, or a JSON response with a status code and a list of
key/value body fields. -/
inductive HttpResponse where
  | streamResp (call : ProviderCall) : HttpResponse
  | jsonResp (status : Nat) (fields : List (String × String)) : HttpResponse
deriving DecidableEq

/-- The catch branch of route.ts lines 71-77: a 400 JSON response whose
body has the field `error` with the fixed text `Failed to process request`
and the field `details` with the exception message. -/
def errorResponse (msg : String) : HttpResponse :=
  .jsonResp 400 [("error", "Failed to process request"), ("details", msg)]

/-- The POST handler of route.ts lines 24-78.  Exceptions are embedded as
`Except String` values carrying the exception message: `parsedBody` is the
outcome of awaiting `req.json()`, and `setupStream` is the outcome of the
stream setup (`convertToModelMessages`, `streamText`,
`toUIMessageStreamResponse`).  The handler is a total function: every
exception path lands in `errorResponse`, so the handler never throws to
its caller. -/
def POST (parsedBody : Except String RequestBody)
    (setupStream : ProviderCall → Except String Unit) : HttpResponse :=
  match parsedBody with
  | .error e => errorResponse e
  | .ok b =>
    let call := relayProviderCall b
    match setupStream call with
    | .error e => errorResponse e
    | .ok _ => .streamResp call

end Relay

namespace RelayTiming

/-- Events on the event-loop timeline of the route handler, under
JavaScript run-to-completion scheduling: arming the abort timer
(`setTimeout`), cancelling it (`clearTimeout`), and a suspension point at
which the handler task yields and `ms` milliseconds of wall-clock time
pass (timer callbacks can only run at suspension points). -/
inductive TEv where
  | armTimer
  | clearTimer
  | suspend (ms : Nat)
deriving DecidableEq

/-- Whether the armed timer callback ever runs: walk the timeline keeping
the elapsed time since the timer was armed (`none` when no timer is
armed); at each suspension point the callback fires when the accumulated
wall-clock time reaches the limit. -/
def timerFires (limit : Nat) : List TEv → Option Nat → Bool
  | [], _ => false
  | TEv.armTimer :: evs, _ => timerFires limit evs (some 0)
  | TEv.clearTimer :: evs, _ => timerFires limit evs none
  | TEv.suspend _ :: evs, none => timerFires limit evs none
  | TEv.suspend ms :: evs, some e =>
    if limit ≤ e + ms then true else timerFires limit evs (some (e + ms))

/-- The event-loop timeline of the POST handler (route.ts lines 24-70):
awaiting `req.json()` suspends for `parseMs`; line 44 arms the 60-second
abort timer; `streamText` (line 46) and `toUIMessageStreamResponse`
(line 61) are synchronous calls that return before the provider stream is
consumed, so the `clearTimeout` at line 69 runs with no intervening
suspension point; afterwards the provider stream is pumped for `streamMs`
of wall-clock time, and the `onFinish` callback (line 56) clears the
(already cleared) timer again. -/
def postTrace (parseMs streamMs : Nat) : List TEv :=
  [.suspend parseMs, .armTimer, .clearTimer, .suspend streamMs, .clearTimer]

/-- Whether the abort controller of the request (route.ts lines 43-44)
ever aborts the in-flight provider call, for a request whose body parse
takes `parseMs` and whose provider stream takes `streamMs` to complete. -/
def requestAborted (parseMs streamMs : Nat) : Bool :=
  timerFires 60000 (postTrace parseMs streamMs) none

end RelayTiming

namespace Client

/-- A typed message part as carried by UIMessage values in app/page.tsx:
a `type` tag (text, reasoning, ...) and its text payload. -/
structure UIPart where
  type : String
  text : String
deriving DecidableEq

/-- A chat message as inspected by the page: `parts = some ps` models a
message whose parts field is an array, `parts = none` models the older
flat shape where the parts field is not an array; `content = none` models
an absent content field. -/
structure UIMsg where
  id : String
  role : String
  parts : Option (List UIPart)
  content : Option String
deriving DecidableEq

/-- The message-body rendering expression of app/page.tsx lines 213-219
(and the identical variant at src/unnamed/part_000 lines 1527-1534): when
the parts field is an array, join the text of the parts whose type is
text; otherwise fall back to the content field, and to the empty string
when content is absent.  A total function: the rendering never throws. -/
def renderMessageText (m : UIMsg) : String :=
  match m.parts with
  | some ps =>
    String.join ((ps.filter (fun p => p.type == "text")).map (fun p => p.text))
  | none => m.content.getD ""

/-- One structured message-update event consumed by the assembly path:
a part type and a text delta for the in-progress assistant message. -/
structure StreamEvent where
  partType : String
  delta : String
deriving DecidableEq

/-- Modelled from the spec: one step of the MessagePartAssembler merge
rule of section 4.3 (the assembler itself lives in the external useChat
hook collaborator, which is not under src/): when the type of the incoming
event matches the type of the current last part the delta is appended to
that part, otherwise a new part is opened at the end. -/
def stepPart (ps : List UIPart) (ev : StreamEvent) : List UIPart :=
  match ps.getLast? with
  | some lastP =>
    if lastP.type = ev.partType then
      ps.dropLast ++ [⟨lastP.type, lastP.text ++ ev.delta⟩]
    else ps ++ [⟨ev.partType, ev.delta⟩]
  | none => [⟨ev.partType, ev.delta⟩]

/-- Modelled from the spec: the assembled ordered part list of the
assistant message produced from a sequence of structured events. -/
def assembleParts (events : List StreamEvent) : List UIPart :=
  events.foldl stepPart []

/-- The request lifecycle status exposed by the useChat hook, as
documented in the repository (idle, submitted, streaming, stopped). -/
inductive ChatStatus where
  | idle | submitted | streaming | stopped
deriving DecidableEq

/-- The isLoading / isSending derivation of app/page.tsx lines 93 and 426:
status is submitted or streaming. -/
def isLoading (st : ChatStatus) : Bool :=
  match st with
  | .submitted => true
  | .streaming => true
  | _ => false

/-- JavaScript String.prototype.trim: strip leading and trailing
whitespace.  Written over the character list so that it is fully
kernel-executable. -/
def jsTrim (s : String) : String :=
  ⟨((s.data.dropWhile Char.isWhitespace).reverse.dropWhile
      Char.isWhitespace).reverse⟩

/-- The transport call issued by sendMessage in app/page.tsx lines 106-115
and 455: the trimmed text plus a body with the model, the stream flag and
the endpoint URL. -/
structure SendCall where
  text : String
  model : String
  stream : Bool
  endpointUrl : String
deriving DecidableEq

/-- The client-side state touched by the submit handler: the lifecycle
status and error value of the useChat hook, the controlled input, the
raw-stream debug buffer, and the message transcript. -/
structure ClientState where
  status : ChatStatus
  input : String
  rawStream : String
  model : String
  endpointUrl : String
  messages : List UIMsg
  errorVal : Option String
deriving DecidableEq

/-- Modelled from the spec: the sendMessage collaborator of the useChat
hook (external package, not under src/) starts a new request: it
transitions the lifecycle to submitted, clears the prior error value, and
appends the finalized user message to the transcript (spec sections 4.4
and 6). -/
def sendMessage (s : ClientState) (t : String) : ClientState :=
  { s with
    status := .submitted
    errorVal := none
    messages := s.messages ++ [⟨"", "user", some [⟨"text", t⟩], none⟩] }

/-- The submit handler of app/page.tsx lines 96-116 (handleSubmit) and
lines 428-456 (onSubmit): trim the input; return without any effect when
the trimmed input is empty or a request is in flight; otherwise clear the
input box, reset the raw-stream buffer to the empty string, and send the
message with a body carrying the model, the stream flag and the endpoint
URL.  The returned pair is the updated client state and the transport call
issued (`none` when no call is made). -/
def handleSubmit (s : ClientState) : ClientState × Option SendCall :=
  let trimmed := jsTrim s.input
  if trimmed = "" ∨ isLoading s.status = true then (s, none)
  else
    let s₁ := { s with input := "", rawStream := "" }
    (sendMessage s₁ trimmed,
     some ⟨trimmed, s.model, true, s.endpointUrl⟩)

/-- Modelled from the spec: the structured message-assembly path (the
stream consumer inside the useChat collaborator) folds one structured
event into the transcript: it extends the parts of the trailing assistant
message via the merge rule, creating the assistant message when absent.
It touches only the `messages` field; in particular it never writes the
raw-stream buffer. -/
def applyStructuredEvent (s : ClientState) (ev : StreamEvent) : ClientState :=
  { s with
    messages :=
      match s.messages.getLast? with
      | some m =>
        if m.role = "assistant" then
          s.messages.dropLast ++
            [{ m with parts := some (stepPart (m.parts.getD []) ev) }]
        else s.messages ++ [⟨"", "assistant", some (stepPart [] ev), none⟩]
      | none => [⟨"", "assistant", some (stepPart [] ev), none⟩] }

end Client

namespace Utf8

/-- Unicode replacement character U+FFFD. -/
def replacementChar : Nat := 0xFFFD

/-- State of the incremental decoder: the buffered bytes of a pending, not
yet complete multi-byte sequence (lead byte first).  Modelled from the
spec, section 4.1: the ChunkDecoder of the repository is the platform
TextDecoder invoked with the stream flag (app/page.tsx lines 67 and 72),
whose implementation is not under src/; it must buffer a trailing
incomplete multi-byte sequence and prepend it to the next call. -/
structure DecState where
  pending : List Nat
deriving DecidableEq

/-- Number of bytes in the UTF-8 sequence introduced by lead byte `b`
(0 when `b` cannot begin a sequence). -/
def seqLen (b : Nat) : Nat :=
  if b < 0x80 then 1
  else if b < 0xC0 then 0
  else if b < 0xE0 then 2
  else if b < 0xF0 then 3
  else if b < 0xF8 then 4
  else 0

/-- Code point assembled from a complete sequence of bytes. -/
def decodeSeq : List Nat → Nat
  | [b] => b
  | [b, c] => (b - 0xC0) * 64 + (c - 0x80)
  | [b, c, d] => (b - 0xE0) * 4096 + (c - 0x80) * 64 + (d - 0x80)
  | [b, c, d, e] =>
    (b - 0xF0) * 262144 + (c - 0x80) * 4096 + (d - 0x80) * 64 + (e - 0x80)
  | _ => replacementChar

/-- Unicode scalar values: below 0x110000 and not a surrogate. -/
def validScalar (n : Nat) : Bool :=
  decide (n < 0x110000 ∧ ¬ (0xD800 ≤ n ∧ n < 0xE000))

/-- Smallest code point encodable in the given number of bytes
(overlong-encoding rejection). -/
def minCp : Nat → Nat
  | 2 => 0x80
  | 3 => 0x800
  | 4 => 0x10000
  | _ => 0

/-- Output for a just-completed byte sequence: the decoded code point, or
the replacement character when the sequence is overlong or decodes outside
the scalar range. -/
def finishSeq (bs : List Nat) : List Nat :=
  let cp := decodeSeq bs
  if validScalar cp = true ∧ minCp bs.length ≤ cp then [cp]
  else [replacementChar]

/-- Feeding one byte to the decoder with no pending sequence: ASCII is
emitted directly, a multi-byte lead is buffered, and a stray continuation
or invalid lead degrades to the replacement character (never an
exception). -/
def feedByteEmpty (b : Nat) : DecState × List Nat :=
  if b < 0x80 then (⟨[]⟩, [b])
  else if 0x80 ≤ b ∧ b < 0xC0 then (⟨[]⟩, [replacementChar])
  else if 2 ≤ seqLen b then (⟨[b]⟩, [])
  else (⟨[]⟩, [replacementChar])

/-- Feeding one byte: a continuation byte extends the pending sequence and
completes it when the expected length is reached; a non-continuation byte
aborts the pending sequence with a replacement character and is then
reprocessed fresh. -/
def feedByte (st : DecState) (b : Nat) : DecState × List Nat :=
  match st.pending with
  | [] => feedByteEmpty b
  | lead :: _ =>
    if 0x80 ≤ b ∧ b < 0xC0 then
      let bs := st.pending ++ [b]
      if bs.length = seqLen lead then (⟨[]⟩, finishSeq bs)
      else (⟨bs⟩, [])
    else
      let p := feedByteEmpty b
      (p.1, replacementChar :: p.2)

/-- `feed`: decode one chunk of bytes, returning the new decoder state and
the code points emitted for this chunk. -/
def feed : DecState → List Nat → DecState × List Nat
  | st, [] => (st, [])
  | st, b :: bs =>
    let p := feedByte st b
    let q := feed p.1 bs
    (q.1, p.2 ++ q.2)

/-- UTF-8 encoding of a scalar value. -/
def encodeChar (c : Nat) : List Nat :=
  if c < 0x80 then [c]
  else if c < 0x800 then [0xC0 + c / 64, 0x80 + c % 64]
  else if c < 0x10000 then
    [0xE0 + c / 4096, 0x80 + c / 64 % 64, 0x80 + c % 64]
  else
    [0xF0 + c / 262144, 0x80 + c / 4096 % 64, 0x80 + c / 64 % 64, 0x80 + c % 64]

end Utf8

namespace Tap

/-- Feed a sequence of byte chunks through one incremental decoder,
accumulating all emitted code points (the TextDecoder instance of one read
loop, fed once per chunk with the stream flag). -/
def feedChunks (chunks : List (List Nat)) : Utf8.DecState × List Nat :=
  chunks.foldl (fun p ch =>
    let q := Utf8.feed p.1 ch
    (q.1, p.2 ++ q.2)) (⟨[]⟩, [])

/-- The decoded text (as code points) of a sequence of byte chunks. -/
def decodeChunks (chunks : List (List Nat)) : List Nat :=
  (feedChunks chunks).2

/-- A response as seen by a debug tap: the byte chunks of the cloned body
(`none` when the body is null), an optional read failure occurring after
the given number of chunks, and the structured events that the primary
consumer derives from the same response. -/
structure TapResponse where
  bodyChunks : Option (List (List Nat))
  readFailsAfter : Option Nat
  events : List Client.StreamEvent
deriving DecidableEq

/-- The state owned by a debug tap: the raw-stream buffer (a string,
modelled as its code points) and the console log. -/
structure TapState where
  rawStream : List Nat
  log : List String
deriving DecidableEq

/-- Chunks actually delivered by the read loop, and whether a read failure
occurred. -/
def deliveredChunks (chunks : List (List Nat)) (failAfter : Option Nat) :
    List (List Nat) × Bool :=
  match failAfter with
  | none => (chunks, false)
  | some n => (chunks.take n, true)

/-- The onResponse tap of app/page.tsx lines 373-392 (identically
src/unnamed/part_000 lines 1344-1363): first reset the raw-stream buffer
to empty, then clone the response; when the body is null return; otherwise
read chunks, decoding each incrementally and appending to the buffer; a
mid-stream read failure is caught by the attached catch handler, which
only writes a console log entry.  A total function: no failure mode
escapes the tap. -/
def onResponseTap (resp : TapResponse) (s : TapState) : TapState :=
  let s₀ : TapState := { s with rawStream := [] }
  match resp.bodyChunks with
  | none => s₀
  | some chunks =>
    let d := deliveredChunks chunks resp.readFailsAfter
    let s₁ : TapState := { s₀ with rawStream := s₀.rawStream ++ decodeChunks d.1 }
    if d.2 then { s₁ with log := s₁.log ++ ["raw stream read failed"] } else s₁

/-- The fetch-interceptor tap of app/page.tsx lines 52-85: only when the
raw view is enabled and the body of the cloned response is non-null does
it reset the buffer and append decoded chunks; with a null body it does
nothing at all.  Its detached read loop has no catch handler, so a read
failure leaves the chunks delivered so far and writes no log entry. -/
def fetchEffectTap (resp : TapResponse) (showRaw : Bool) (s : TapState) :
    TapState :=
  if showRaw then
    match resp.bodyChunks with
    | none => s
    | some chunks =>
      let d := deliveredChunks chunks resp.readFailsAfter
      { s with rawStream := decodeChunks d.1 }
  else s

/-- The two independent consumers of one response: the debug tap updating
its own state, and the primary structured path assembling the assistant
message from the structured events of the same response.  The structured
path reads its own (uncloned) stream, so its output depends only on the
events. -/
def processResponse (resp : TapResponse) (s : TapState) :
    TapState × List Client.UIPart :=
  (onResponseTap resp s, Client.assembleParts resp.events)

end Tap

namespace FetchTap

/-- A value of the global window.fetch slot: the original browser fetch,
or one of the wrapper closures installed by
interceptNextChatResponse. -/
inductive FetchVal where
  | base
  | wrapper (id : Nat)
deriving DecidableEq

/-- The closure state of one installed wrapper: the fetch value it
captured as originalFetch at attach time, and its one-shot `done` flag. -/
structure Interceptor where
  captured : FetchVal
  done : Bool
deriving DecidableEq

/-- The world: every wrapper closure ever created (indexed by id) and the
current value of the window.fetch slot. -/
structure World where
  interceptors : List Interceptor
  gfetch : FetchVal
deriving DecidableEq

/-- interceptNextChatResponse (app/page.tsx lines 402-424): capture the
currently installed window.fetch into the closure as originalFetch,
create a fresh wrapper with the `done` flag unset, and install the wrapper
into the window.fetch slot.  Note that it wraps whatever is currently
installed — a still-pending previous wrapper included; no teardown of a
previous wrapper occurs. -/
def attach (w : World) : World :=
  { interceptors := w.interceptors ++ [⟨w.gfetch, false⟩]
    gfetch := .wrapper w.interceptors.length }

/-- Evaluate one fetch call to /api/chat through the fetch value `f`,
returning the world after the call completes.  A wrapper first awaits its
captured originalFetch on the same request, then — when it has not fired
yet — marks itself done and restores the window.fetch slot to its captured
value (page.tsx lines 406-423).  `fuel` bounds the wrapper chain. -/
def callFetch : Nat → World → FetchVal → World
  | 0, w, _ => w
  | _ + 1, w, .base => w
  | fuel + 1, w, .wrapper i =>
    match w.interceptors[i]? with
    | none => w
    | some intc =>
      let w₁ := callFetch fuel w intc.captured
      match w₁.interceptors[i]? with
      | none => w₁
      | some intc₁ =>
        if intc₁.done then w₁
        else { interceptors := w₁.interceptors.set i ⟨intc₁.captured, true⟩
               gfetch := intc₁.captured }

/-- One request to /api/chat dispatched through the currently installed
window.fetch. -/
def fireChat (w : World) : World :=
  callFetch (w.interceptors.length + 1) w w.gfetch

/-- Number of not-yet-fired wrappers stacked in the chain of the installed
fetch value. -/
def chainActive : Nat → World → FetchVal → Nat
  | 0, _, _ => 0
  | _ + 1, _, .base => 0
  | fuel + 1, w, .wrapper i =>
    match w.interceptors[i]? with
    | none => 0
    | some intc =>
      (if intc.done then 0 else 1) + chainActive fuel w intc.captured

/-- Number of active (not yet fired) wrappers currently wrapping the
transport. -/
def activeWrappers (w : World) : Nat :=
  chainActive (w.interceptors.length + 1) w w.gfetch

end FetchTap

namespace Utf8

/-- Chunk-split invariance of the incremental decoder: feeding the
concatenation of two chunks equals feeding them sequentially through the
carried decoder state, with the outputs concatenated. -/
theorem feed_append (st : DecState) (a b : List Nat) :
    feed st (a ++ b) =
      ((feed (feed st a).1 b).1, (feed st a).2 ++ (feed (feed st a).1 b).2) := by
  induction a generalizing st with
  | nil => simp [feed]
  | cons x xs ih => simp [feed, ih]

/-- Running the decoder over a well-formed two-byte sequence reduces to
`finishSeq`. -/
theorem feed_two (b₀ b₁ : Nat) (h₀ : 0xC0 ≤ b₀ ∧ b₀ < 0xE0)
    (h₁ : 0x80 ≤ b₁ ∧ b₁ < 0xC0) :
    feed ⟨[]⟩ [b₀, b₁] = (⟨[]⟩, finishSeq [b₀, b₁]) := by
  have hs : seqLen b₀ = 2 := by
    unfold seqLen
    rw [if_neg (by omega), if_neg (by omega), if_pos (by omega)]
  have he : feedByteEmpty b₀ = (⟨[b₀]⟩, []) := by
    unfold feedByteEmpty
    rw [if_neg (by omega), if_neg (by omega), hs, if_pos (by omega)]
  simp [feed, feedByte, he, hs, h₁]

/-- Running the decoder over a well-formed three-byte sequence reduces to
`finishSeq`. -/
theorem feed_three (b₀ b₁ b₂ : Nat) (h₀ : 0xE0 ≤ b₀ ∧ b₀ < 0xF0)
    (h₁ : 0x80 ≤ b₁ ∧ b₁ < 0xC0) (h₂ : 0x80 ≤ b₂ ∧ b₂ < 0xC0) :
    feed ⟨[]⟩ [b₀, b₁, b₂] = (⟨[]⟩, finishSeq [b₀, b₁, b₂]) := by
  have hs : seqLen b₀ = 3 := by
    unfold seqLen
    rw [if_neg (by omega), if_neg (by omega), if_neg (by omega),
      if_pos (by omega)]
  have he : feedByteEmpty b₀ = (⟨[b₀]⟩, []) := by
    unfold feedByteEmpty
    rw [if_neg (by omega), if_neg (by omega), hs, if_pos (by omega)]
  simp [feed, feedByte, he, hs, h₁, h₂]

/-- Running the decoder over a well-formed four-byte sequence reduces to
`finishSeq`. -/
theorem feed_four (b₀ b₁ b₂ b₃ : Nat) (h₀ : 0xF0 ≤ b₀ ∧ b₀ < 0xF8)
    (h₁ : 0x80 ≤ b₁ ∧ b₁ < 0xC0) (h₂ : 0x80 ≤ b₂ ∧ b₂ < 0xC0)
    (h₃ : 0x80 ≤ b₃ ∧ b₃ < 0xC0) :
    feed ⟨[]⟩ [b₀, b₁, b₂, b₃] = (⟨[]⟩, finishSeq [b₀, b₁, b₂, b₃]) := by
  have hs : seqLen b₀ = 4 := by
    unfold seqLen
    rw [if_neg (by omega), if_neg (by omega), if_neg (by omega),
      if_neg (by omega), if_pos (by omega)]
  have he : feedByteEmpty b₀ = (⟨[b₀]⟩, []) := by
    unfold feedByteEmpty
    rw [if_neg (by omega), if_neg (by omega), hs, if_pos (by omega)]
  simp [feed, feedByte, he, hs, h₁, h₂, h₃]

/-- Round trip: decoding the UTF-8 encoding of any multi-byte scalar value
in one shot yields exactly that code point and an empty pending buffer. -/
theorem decode_encode (c : Nat) (hv : validScalar c = true) (hmb : 0x80 ≤ c) :
    feed ⟨[]⟩ (encodeChar c) = (⟨[]⟩, [c]) := by
  have hv' : c < 0x110000 ∧ (c < 0xD800 ∨ 0xE000 ≤ c) := by
    simpa [validScalar] using hv
  rcases Nat.lt_or_ge c 0x800 with h8 | h8
  · have he : encodeChar c = [0xC0 + c / 64, 0x80 + c % 64] := by
      unfold encodeChar
      rw [if_neg (by omega), if_pos (by omega)]
    rw [he, feed_two _ _ (by omega) (by omega)]
    have hd : decodeSeq [0xC0 + c / 64, 0x80 + c % 64] = c := by
      simp [decodeSeq]; omega
    unfold finishSeq
    rw [hd]
    rw [if_pos ⟨hv, by simp [minCp]; omega⟩]
  · rcases Nat.lt_or_ge c 0x10000 with h16 | h16
    · have he : encodeChar c =
          [0xE0 + c / 4096, 0x80 + c / 64 % 64, 0x80 + c % 64] := by
        unfold encodeChar
        rw [if_neg (by omega), if_neg (by omega), if_pos (by omega)]
      rw [he, feed_three _ _ _ (by omega) (by omega) (by omega)]
      have hd : decodeSeq [0xE0 + c / 4096, 0x80 + c / 64 % 64, 0x80 + c % 64] = c := by
        simp [decodeSeq]; omega
      unfold finishSeq
      rw [hd]
      rw [if_pos ⟨hv, by simp [minCp]; omega⟩]
    · have he : encodeChar c =
          [0xF0 + c / 262144, 0x80 + c / 4096 % 64, 0x80 + c / 64 % 64,
            0x80 + c % 64] := by
        unfold encodeChar
        rw [if_neg (by omega), if_neg (by omega), if_neg (by omega)]
      rw [he, feed_four _ _ _ _ (by omega) (by omega) (by omega) (by omega)]
      have hd : decodeSeq
          [0xF0 + c / 262144, 0x80 + c / 4096 % 64, 0x80 + c / 64 % 64,
            0x80 + c % 64] = c := by
        simp [decodeSeq]; omega
      unfold finishSeq
      rw [hd]
      rw [if_pos ⟨hv, by simp [minCp]; omega⟩]

/-- Claim C6: for every multi-byte Unicode scalar value whose encoded
bytes are split at any interior position into two chunks, feeding the two
chunks sequentially to the chunk decoder (the pending bytes buffered
across the boundary) emits exactly the correct character, and never a
replacement character (unless the character itself is U+FFFD). -/
theorem split_multibyte_decodes_correctly (c i : Nat)
    (hv : validScalar c = true) (hmb : 0x80 ≤ c)
    (_hi : 0 < i) (_hil : i < (encodeChar c).length) :
    (feed ⟨[]⟩ ((encodeChar c).take i)).2 ++
        (feed (feed ⟨[]⟩ ((encodeChar c).take i)).1 ((encodeChar c).drop i)).2 =
      [c] ∧
    (c ≠ replacementChar →
      replacementChar ∉
        (feed ⟨[]⟩ ((encodeChar c).take i)).2 ++
          (feed (feed ⟨[]⟩ ((encodeChar c).take i)).1
            ((encodeChar c).drop i)).2) := by
  have key : (feed ⟨[]⟩ ((encodeChar c).take i)).2 ++
      (feed (feed ⟨[]⟩ ((encodeChar c).take i)).1 ((encodeChar c).drop i)).2 =
        [c] := by
    have h₁ := feed_append ⟨[]⟩ ((encodeChar c).take i) ((encodeChar c).drop i)
    rw [List.take_append_drop, decode_encode c hv hmb] at h₁
    exact (congrArg Prod.snd h₁).symm
  refine ⟨key, fun hne => ?_⟩
  rw [key]
  simp [hne.symm]

/-- Claim C6 witness: the euro sign U+20AC (three bytes E2 82 AC) split
after its first byte decodes across the chunk boundary to exactly
U+20AC. -/
theorem split_multibyte_witness :
    (validScalar 0x20AC = true ∧ 0x80 ≤ 0x20AC ∧ 0 < 1 ∧
      1 < (encodeChar 0x20AC).length) ∧
    (feed ⟨[]⟩ ((encodeChar 0x20AC).take 1)).2 ++
        (feed (feed ⟨[]⟩ ((encodeChar 0x20AC).take 1)).1
          ((encodeChar 0x20AC).drop 1)).2 = [0x20AC] :=
  ⟨⟨by decide, by decide, by decide, by decide⟩,
   (split_multibyte_decodes_correctly 0x20AC 1 (by decide) (by decide)
     (by decide) (by decide)).1⟩

end Utf8

namespace Relay

/-- Claim C7 counterexample: a message whose role is `user` (a role inside
the allowed set) but whose content is neither a string nor an array and
which has no parts array is nevertheless filtered out by the relay, so the
filter does not retain every message whose role is in the set. -/
theorem valid_role_message_filtered :
    roleAllowed ⟨true, "user", false, false, false⟩ = true ∧
    processedMessages [⟨true, "user", false, false, false⟩] = [] := by
  decide

/-- Claim C7 (amended): a message is retained by the relay filter iff it
came from the inbound list, is an object, has a role in the set `user`,
`assistant`, `system`, and has a string content, an array content, or a
parts array; in particular every message whose role is outside the set is
filtered out, but a message with an allowed role may also be dropped when
its content/parts shapes are all missing. -/
theorem processedMessages_characterization (msgs : List InMsg) (m : InMsg) :
    m ∈ processedMessages msgs ↔
      m ∈ msgs ∧ m.isObject = true ∧ roleAllowed m = true ∧
        shapeAllowed m = true := by
  simp only [processedMessages, List.mem_filter, isValidMessage, roleAllowed,
    shapeAllowed, Bool.and_eq_true, and_assoc]

/-- Claim C9: the provider call issued by the relay is independent of the
client-supplied `endpointUrl` field: two bodies that differ only in
`endpointUrl` configure the identical provider call, and the base URL is
always the fixed constant, because the POST handler never destructures
`endpointUrl` from the body. -/
theorem providerCall_ignores_endpointUrl (b : RequestBody)
    (u₁ u₂ : Option String) :
    relayProviderCall { b with endpointUrl := u₁ } =
      relayProviderCall { b with endpointUrl := u₂ } ∧
    (relayProviderCall { b with endpointUrl := u₁ }).baseURL =
      "https://api.hicap.ai/v2/openai/dev" := by
  exact ⟨rfl, rfl⟩

/-- Claim C10: the POST handler is total with respect to exceptions: it is
a total Lean function (it never throws to its caller), and whenever
parsing the JSON body or setting up the stream raises an exception with
message `e`, the result is the HTTP 400 JSON response whose body has the
field `error` (with the fixed text) and the field `details` (with
`e`). -/
theorem POST_catches_exceptions (parsedBody : Except String RequestBody)
    (setupStream : ProviderCall → Except String Unit) (e : String)
    (h : parsedBody = .error e ∨
      ∃ b, parsedBody = .ok b ∧ setupStream (relayProviderCall b) = .error e) :
    POST parsedBody setupStream =
      .jsonResp 400 [("error", "Failed to process request"), ("details", e)] := by
  rcases h with h | ⟨b, hb, hs⟩
  · subst h; rfl
  · subst hb; simp [POST, hs, errorResponse]

/-- Claim C10 witness: a concrete request whose JSON body fails to parse
is answered with the 400 error envelope. -/
theorem POST_catches_exceptions_witness :
    ((Except.error "Unexpected token" : Except String RequestBody) =
        .error "Unexpected token" ∨
      ∃ b, (Except.error "Unexpected token" : Except String RequestBody) =
          .ok b ∧
        (fun _ => Except.ok ()) (relayProviderCall b) =
          .error "Unexpected token") ∧
    POST (Except.error "Unexpected token") (fun _ => Except.ok ()) =
      .jsonResp 400
        [("error", "Failed to process request"),
          ("details", "Unexpected token")] :=
  ⟨Or.inl rfl,
   POST_catches_exceptions (Except.error "Unexpected token")
     (fun _ => Except.ok ()) "Unexpected token" (Or.inl rfl)⟩

end Relay

namespace Client

/-- Claim C2: whenever a request is in flight (status submitted or
streaming) or the input is empty/whitespace-only, invoking submit is a
no-op: the returned state is exactly the old state (transcript included)
and no transport call is issued.  This covers in particular every state
where both guards hold at once. -/
theorem submit_noop_when_busy_or_blank (s : ClientState)
    (h : isLoading s.status = true ∨ jsTrim s.input = "") :
    handleSubmit s = (s, none) := by
  rcases h with h | h
  · simp [handleSubmit, h]
  · simp [handleSubmit, h]

/-- Claim C2 witness: with a request streaming and a non-empty input, the
submit handler leaves the concrete state untouched and issues no call. -/
theorem submit_noop_witness :
    (isLoading (ClientState.mk .streaming "hi" "" "gemini-2.5-pro"
        "https://api.hicap.ai/v2/openai/dev" [] none).status = true ∨
      jsTrim (ClientState.mk .streaming "hi" "" "gemini-2.5-pro"
        "https://api.hicap.ai/v2/openai/dev" [] none).input = "") ∧
    handleSubmit (ClientState.mk .streaming "hi" "" "gemini-2.5-pro"
        "https://api.hicap.ai/v2/openai/dev" [] none) =
      (ClientState.mk .streaming "hi" "" "gemini-2.5-pro"
        "https://api.hicap.ai/v2/openai/dev" [] none, none) :=
  ⟨Or.inl rfl,
   submit_noop_when_busy_or_blank
     (ClientState.mk .streaming "hi" "" "gemini-2.5-pro"
       "https://api.hicap.ai/v2/openai/dev" [] none) (Or.inl rfl)⟩

/-- Claim C5: every accepted submit (non-empty trimmed input while idle)
resets the raw-stream buffer to the empty string and clears the prior
error value, and issues exactly the transport call carrying the trimmed
text, the selected model, the stream flag and the endpoint URL; moreover
the structured assembly path never mutates the raw-stream buffer. -/
theorem submit_clears_raw_and_error (s : ClientState)
    (hidle : s.status = .idle) (hne : jsTrim s.input ≠ "") :
    (handleSubmit s).1.rawStream = "" ∧
    (handleSubmit s).1.errorVal = none ∧
    (handleSubmit s).2 = some ⟨jsTrim s.input, s.model, true, s.endpointUrl⟩ ∧
    (∀ t ev, (applyStructuredEvent t ev).rawStream = t.rawStream) := by
  have hbusy : isLoading s.status = false := by rw [hidle]; rfl
  refine ⟨?_, ?_, ?_, fun t ev => rfl⟩ <;>
    simp [handleSubmit, hne, hbusy, sendMessage]

/-- Claim C5 witness: a concrete idle state with stale raw-stream content
and a stale error submits the text, after which the raw buffer is empty,
the error is cleared, and the expected call is issued. -/
theorem submit_clears_raw_and_error_witness :
    ((ClientState.mk .idle " hello " "old raw" "gemini-2.5-pro"
        "https://api.hicap.ai/v2/openai/dev" [] (some "boom")).status = .idle ∧
      jsTrim (ClientState.mk .idle " hello " "old raw" "gemini-2.5-pro"
        "https://api.hicap.ai/v2/openai/dev" [] (some "boom")).input ≠ "") ∧
    (handleSubmit (ClientState.mk .idle " hello " "old raw" "gemini-2.5-pro"
        "https://api.hicap.ai/v2/openai/dev" [] (some "boom"))).1.rawStream = "" ∧
    (handleSubmit (ClientState.mk .idle " hello " "old raw" "gemini-2.5-pro"
        "https://api.hicap.ai/v2/openai/dev" [] (some "boom"))).1.errorVal = none ∧
    (handleSubmit (ClientState.mk .idle " hello " "old raw" "gemini-2.5-pro"
        "https://api.hicap.ai/v2/openai/dev" [] (some "boom"))).2 =
      some ⟨"hello", "gemini-2.5-pro", true,
        "https://api.hicap.ai/v2/openai/dev"⟩ :=
  ⟨⟨rfl, by decide⟩,
   by
    have h := submit_clears_raw_and_error
      (ClientState.mk .idle " hello " "old raw" "gemini-2.5-pro"
        "https://api.hicap.ai/v2/openai/dev" [] (some "boom")) rfl (by decide)
    exact ⟨h.1, h.2.1, h.2.2.1⟩⟩

/-- Claim C8: rendering a message whose parts field is not an array
degrades to the whole content as a single text payload, and when the
content field is also absent the rendered text is the empty string;
`renderMessageText` is a total function, so rendering never throws. -/
theorem renderMessageText_flat (m : UIMsg) (h : m.parts = none) :
    renderMessageText m = m.content.getD "" ∧
    (m.content = none → renderMessageText m = "") := by
  constructor
  · simp [renderMessageText, h]
  · intro hc; simp [renderMessageText, h, hc]

/-- Claim C8 witness: a concrete flat message with no parts array and no
content renders to the empty string. -/
theorem renderMessageText_flat_witness :
    (UIMsg.mk "m1" "assistant" none none).parts = none ∧
    renderMessageText (UIMsg.mk "m1" "assistant" none none) =
      (UIMsg.mk "m1" "assistant" none none).content.getD "" :=
  ⟨rfl, (renderMessageText_flat (UIMsg.mk "m1" "assistant" none none) rfl).1⟩

end Client

namespace Tap

/-- Claim C3 counterexample: a response with a null body observed by the
onResponse tap is not a no-op — the tap resets the raw-stream buffer to
empty before checking the body, so a state whose raw buffer holds the
code point 120 is changed. -/
theorem onResponse_null_body_not_noop :
    onResponseTap ⟨none, none, []⟩ ⟨[120], []⟩ ≠ ⟨[120], []⟩ := by
  decide

/-- Claim C3 (amended): for every response, the structured assistant
message is assembled from the structured events of the response alone —
the output of the structured path is identical whatever the body chunks
or read-failure mode seen by the tap; a null body makes the onResponse tap
reset the raw buffer to empty and do nothing further (while the
fetch-interceptor tap of the useEffect variant is a strict no-op on a null
body); and a mid-stream read failure in the onResponse tap is caught and
only appends a console log entry — it never propagates to the structured
message flow. -/
theorem tap_isolated (resp : TapResponse) (s : TapState)
    (b : Option (List (List Nat))) (f : Option Nat)
    (chunks : List (List Nat)) (n : Nat) :
    (processResponse { resp with bodyChunks := b, readFailsAfter := f } s).2 =
      Client.assembleParts resp.events ∧
    onResponseTap { resp with bodyChunks := none } s =
      { s with rawStream := [] } ∧
    fetchEffectTap { resp with bodyChunks := none } true s = s ∧
    (onResponseTap
        { resp with bodyChunks := some chunks, readFailsAfter := some n }
        s).log = s.log ++ ["raw stream read failed"] := by
  refine ⟨rfl, rfl, rfl, rfl⟩

end Tap

namespace FetchTap

/-- Claim C4 counterexample: starting from the pristine transport, calling
attach twice (the second time while the first wrapper is still pending)
leaves two active wrappers stacked on the transport — the previous wrapper
is not torn down but double-wrapped — and after the next /api/chat request
the window.fetch slot holds the stale first wrapper, not the original
transport: the original fetch is never restored. -/
theorem interceptor_double_wrap :
    activeWrappers (attach (attach ⟨[], .base⟩)) = 2 ∧
    (fireChat (attach (attach ⟨[], .base⟩))).gfetch ≠ FetchVal.base := by
  decide

/-- Lookup of the just-appended interceptor. -/
theorem getElem?_concat_self (l : List Interceptor) (x : Interceptor) :
    (l ++ [x])[l.length]? = some x := by
  induction l with
  | nil => rfl
  | cons a t ih => simp [ih]

/-- Unfolding one /api/chat call through a wrapper whose captured fetch is
the original transport and which has not fired yet: the wrapper marks
itself done and restores the original transport. -/
theorem callFetch_top (fuel : Nat) (w : World) (i : Nat)
    (h : w.interceptors[i]? = some ⟨.base, false⟩) :
    callFetch (fuel + 2) w (.wrapper i) =
      { interceptors := w.interceptors.set i ⟨.base, true⟩
        gfetch := .base } := by
  show callFetch ((fuel + 1) + 1) w (.wrapper i) = _
  rw [callFetch, h]
  simp [callFetch, h]

/-- Claim C4 (amended): attaching a tap does not tear down a pending
previous wrapper — it wraps the currently installed fetch value (see the
counterexample); what does hold is the one-shot restore: whenever the tap
is attached while the original transport is the installed fetch (no
pending wrapper), the next /api/chat request deterministically restores
the original transport into the window.fetch slot. -/
theorem interceptor_restores_from_clean (w : World) (h : w.gfetch = .base) :
    (fireChat (attach w)).gfetch = FetchVal.base := by
  have hlen : (attach w).interceptors.length = w.interceptors.length + 1 := by
    simp [attach]
  have hget : (attach w).interceptors[w.interceptors.length]? =
      some ⟨FetchVal.base, false⟩ := by
    rw [← h]
    exact getElem?_concat_self w.interceptors ⟨w.gfetch, false⟩
  have hgf : (attach w).gfetch = .wrapper w.interceptors.length := rfl
  unfold fireChat
  rw [hlen, hgf, callFetch_top w.interceptors.length (attach w)
    w.interceptors.length hget]

/-- Claim C4 witness: attaching on the pristine world and firing one
/api/chat request restores the original transport. -/
theorem interceptor_restores_witness :
    (World.mk [] .base).gfetch = FetchVal.base ∧
    (fireChat (attach (World.mk [] .base))).gfetch = FetchVal.base :=
  ⟨rfl, interceptor_restores_from_clean (World.mk [] .base) rfl⟩

end FetchTap

namespace RelayTiming

/-- Claim C1 (code bug): the 60-second abort timer of the route handler
never fires, whatever the parse duration and however long the provider
stream takes — in particular for a provider call still in flight after 60
seconds no abort happens, because the clearTimeout at route.ts line 69
runs synchronously after the streaming response object is created, with no
suspension point between setTimeout (line 44) and clearTimeout at which
the timer callback could run.  The documented intent (abort reason string
`Request timeout (60s)` and the spec) requires the in-flight call to be
aborted at 60 seconds. -/
theorem relay_timeout_never_fires (parseMs streamMs : Nat) :
    requestAborted parseMs streamMs = false := by
  simp [requestAborted, postTrace, timerFires]

end RelayTiming
